import Mathlib

/-!
Shallow embedding of the f110 imitation-learning repository:
the transform-pipeline / dataset-materialization engine of
`src/Data_Utils.py` and the epoch-training control loop of
`src/NN/train.py`.

Modelling conventions:
* A Python sample dict `{"img": ..., "row": ..., "flag": ..., "img_name": ...}`
  is the structure `Record`; absent keys are `none` (matching `dict.get`
  returning `None`).
* Images are height-indexed lists of pixel rows (`cv2.flip(img, 1)` reverses
  each pixel row; vertical cropping slices the outer list with Python slice
  semantics).
* A pandas label row is a list of scalar fields (`Cell`); the value stored
  under the "row" key is `RowVal`, which can also be a bare number because
  `radOffset` / `rad2deg` overwrite the whole row with a scalar.
* Numbers are exact rationals; `math.pi` is the exact value of the IEEE-754
  double Python uses. Float rounding is abstracted away; none of the proved
  properties depends on rounding.
* Python exceptions are the error side of `Except PyErr`; each embedded
  function raises where the source line would raise.
-/

set_option autoImplicit false

/-- A scalar field of a label row: pandas cells that matter here are either
strings (image filename at index 0) or numbers (steering angle at index 1). -/
inductive Cell where
  | str (s : String)
  | num (q : ℚ)
deriving DecidableEq

/-- The value stored under the "row" key of a sample dict. The source keeps a
pandas Series there (`series`), but `radOffset` and `rad2deg` overwrite it
with a bare scalar (`num`), so the embedded type must allow both. -/
inductive RowVal where
  | series (fs : List Cell)
  | num (q : ℚ)
deriving DecidableEq

/-- A positional argument of a JSON-described operation (numbers for crop
bounds and offsets, strings for the rot90 direction). -/
inductive Arg where
  | num (q : ℚ)
  | str (s : String)
deriving DecidableEq

/-- An image: a list of pixel rows, each row a list of 3-channel pixels. -/
abbrev Image := List (List (ℚ × ℚ × ℚ))

/-- A parsed row of a `data.csv` dataset index. -/
abbrev PyRow := List Cell

/-- Python exceptions that the embedded code can raise. -/
inductive PyErr where
  | assertionError
  | exception (msg : String)
  | typeError
  | nameError
  | indexError
  | attributeError
deriving DecidableEq

/-- Propositional equality of `Except` values is decidable componentwise,
so concrete runs of the embedded code can be checked by `decide`. -/
instance exceptDecEq {ε α : Type} [DecidableEq ε] [DecidableEq α] :
    DecidableEq (Except ε α)
  | Except.error e, Except.error f => decidable_of_iff (e = f) (by simp)
  | Except.error _, Except.ok _ => isFalse (fun h => Except.noConfusion h)
  | Except.ok _, Except.error _ => isFalse (fun h => Except.noConfusion h)
  | Except.ok a, Except.ok b => decidable_of_iff (a = b) (by simp)

/-- The sample dict flowing through the transform chain
(`{"img": ..., "row": ...}` built in `Data_Utils.MOVE`, line 127).
`none` models an absent key. -/
structure Record where
  img : Option Image
  row : Option RowVal
  flag : Option Bool
  img_name : Option String
deriving DecidableEq

/-- A JSON-formatted function descriptor (see `steps.json`):
an operation name `F` plus a positional argument list. -/
structure JsonFunc where
  F : String
  args : List Arg
deriving DecidableEq

/-- Clamped index of Python list slicing: position of the slice bound `i`
inside a list of length `n` (negative bounds count from the end). -/
def pySliceIdx (n : ℕ) (i : ℤ) : ℕ :=
  if i < 0 then (i + n).toNat else min i.toNat n

/-- Python `xs[s:]` for an integer bound. -/
def pySliceFrom (s : ℤ) (xs : Image) : Image :=
  xs.drop (pySliceIdx xs.length s)

/-- Python `xs[s:e]` for integer bounds. -/
def pySliceBetween (s e : ℤ) (xs : Image) : Image :=
  (xs.take (pySliceIdx xs.length e)).drop (pySliceIdx xs.length s)

/-- The exact rational value of the IEEE-754 double `math.pi`. -/
def mathPi : ℚ := 884279719003555 / 281474976710656

/-- Horizontal mirror `cv2.flip(img, 1)`: every pixel row is reversed. -/
def hflip (im : Image) : Image := im.map List.reverse

/-- Embeds `cropVertical` (Data_Utils.py lines 6-19). Keeps image rows
`[cropStart:]` when the end bound is negative, `[cropStart:cropEnd]` when it
is positive, and raises `Exception` on a zero end bound. The assert on the
argument count raises `AssertionError`; slicing a missing image or slicing
with a non-integer bound raises `TypeError`. -/
def cropVertical (args : List Arg) (src_dict : Record) : Except PyErr Record :=
  match args with
  | [s, e] =>
    match s, e with
    | Arg.num cs, Arg.num ce =>
      if ce < 0 then
        match src_dict.img with
        | none => Except.error PyErr.typeError
        | some im =>
          if cs.den = 1 then
            Except.ok { src_dict with img := some (pySliceFrom cs.num im) }
          else Except.error PyErr.typeError
      else if 0 < ce then
        match src_dict.img with
        | none => Except.error PyErr.typeError
        | some im =>
          if cs.den = 1 ∧ ce.den = 1 then
            Except.ok { src_dict with img := some (pySliceBetween cs.num ce.num im) }
          else Except.error PyErr.typeError
      else Except.error (PyErr.exception "bad args cropvertical")
    | _, _ => Except.error PyErr.typeError
  | _ => Except.error PyErr.assertionError

/-- Embeds `rot90` (Data_Utils.py lines 21-33). The clockwise branch
references the undefined name `img` (line 28) and therefore raises
`NameError`; the anticlockwise branch is a stub (`pass`), and any other
direction falls through both branches, so the record is returned unchanged. -/
def rot90 (args : List Arg) (src_dict : Record) : Except PyErr Record :=
  match args with
  | [d] =>
    if d = Arg.str "clockwise" then Except.error PyErr.nameError
    else Except.ok src_dict
  | _ => Except.error PyErr.assertionError

/-- Embeds `radOffset` (Data_Utils.py lines 35-41). Reads the angle
`src_row[1]` and then stores the bare scalar `src_row[1] + offset` under the
"row" key, replacing the whole label row. Indexing a missing or scalar row,
or adding incompatible types, raises `TypeError`. -/
def radOffset (args : List Arg) (src_dict : Record) : Except PyErr Record :=
  match args with
  | [off] =>
    match src_dict.row with
    | some (RowVal.series fs) =>
      match fs.get? 1 with
      | some (Cell.num a) =>
        match off with
        | Arg.num o => Except.ok { src_dict with row := some (RowVal.num (a + o)) }
        | Arg.str _ => Except.error PyErr.typeError
      | some (Cell.str _) => Except.error PyErr.typeError
      | none => Except.error PyErr.indexError
    | _ => Except.error PyErr.typeError
  | _ => Except.error PyErr.assertionError

/-- Embeds `rad2deg` (Data_Utils.py lines 43-48). Stores the bare scalar
`src_row[1] * 180.0 / math.pi` under the "row" key, replacing the whole
label row. -/
def rad2deg (args : List Arg) (src_dict : Record) : Except PyErr Record :=
  match args with
  | [] =>
    match src_dict.row with
    | some (RowVal.series fs) =>
      match fs.get? 1 with
      | some (Cell.num a) =>
        Except.ok { src_dict with row := some (RowVal.num (a * 180 / mathPi)) }
      | some (Cell.str _) => Except.error PyErr.typeError
      | none => Except.error PyErr.indexError
    | _ => Except.error PyErr.typeError
  | _ => Except.error PyErr.assertionError

/-- Embeds `flipNonZero` (Data_Utils.py lines 50-61). If the angle
`src_row[1]` is zero, only sets the flag to `False`; otherwise sets the
flag to `True`, mirrors the image horizontally and negates the angle in
place. A string angle survives the zero comparison (Python `==` between a
string and a float is `False`) but the negation `-1.0 * src_row[1]` then
raises `TypeError`; a missing image makes `cv2.flip` raise. -/
def flipNonZero (args : List Arg) (src_dict : Record) : Except PyErr Record :=
  match args with
  | [] =>
    match src_dict.row with
    | some (RowVal.series fs) =>
      match fs.get? 1 with
      | some (Cell.num a) =>
        if a = 0 then Except.ok { src_dict with flag := some false }
        else
          match src_dict.img with
          | none => Except.error PyErr.typeError
          | some im =>
            Except.ok { src_dict with
              flag := some true
              img := some (hflip im)
              row := some (RowVal.series (fs.set 1 (Cell.num (-1 * a)))) }
      | some (Cell.str _) => Except.error PyErr.typeError
      | none => Except.error PyErr.indexError
    | _ => Except.error PyErr.typeError
  | _ => Except.error PyErr.assertionError

/-- The fixed operation vocabulary of the registry dispatch in
`Data_Utils.get_partial_func` (Data_Utils.py lines 153-162). -/
def knownOpNames : List String :=
  ["cropVertical", "rad2deg", "radOffset", "rot90", "flipNonZero"]

/-- The message of the unknown-operation exception (Data_Utils.py line 164).
The source string is a plain literal, not an f-string, so the braces and the
word fname appear verbatim for every unknown name. -/
def unknownOpMsg : String := "\x7bfname\x7d is not in the list of functions"

/-- Embeds `Data_Utils.get_partial_func` (Data_Utils.py lines 147-165):
resolves a JSON function descriptor to a closure over its argument list, or
raises for a name outside the fixed vocabulary. -/
def get_pfunc (json_func : JsonFunc) : Except PyErr (Record → Except PyErr Record) :=
  if json_func.F = "cropVertical" then Except.ok (cropVertical json_func.args)
  else if json_func.F = "rad2deg" then Except.ok (rad2deg json_func.args)
  else if json_func.F = "radOffset" then Except.ok (radOffset json_func.args)
  else if json_func.F = "rot90" then Except.ok (rot90 json_func.args)
  else if json_func.F = "flipNonZero" then Except.ok (flipNonZero json_func.args)
  else Except.error (PyErr.exception unknownOpMsg)

/-- Embeds `Data_Utils.apply_flist` (Data_Utils.py lines 167-174). The loop
body only builds each partial function (raising for an unknown name) and
never calls it; the function body has no return statement, so on normal
completion the Python value `None` is returned, embedded as `Option.none`. -/
def apply_flist (src_dict : Record) (flist : List JsonFunc) : Except PyErr (Option Record) :=
  match flist with
  | [] => Except.ok none
  | json_func :: rest =>
    match get_pfunc json_func with
    | Except.error e => Except.error e
    | Except.ok _ => apply_flist src_dict rest

/-- The Transform Executor contract as the spec words it (section 4.2):
resolve each descriptor in list order and apply it to the record produced by
its predecessor, returning the record produced by the last operation. Stated
separately from `apply_flist` so the two can be compared. -/
def apply_flist_spec (src_dict : Record) (flist : List JsonFunc) : Except PyErr Record :=
  match flist with
  | [] => Except.ok src_dict
  | json_func :: rest =>
    match get_pfunc json_func with
    | Except.error e => Except.error e
    | Except.ok op =>
      match op src_dict with
      | Except.error e => Except.error e
      | Except.ok r => apply_flist_spec r rest

/-- Embeds `Data_Utils.get_dest_datapath` (Data_Utils.py lines 70-80).
`dest_listing` stands for `len(os.listdir(dest_datadir))`. -/
def get_dest_datapath (dest_datadir folder op : String) (dest_listing : ℕ) : String :=
  if op = "aug" then dest_datadir ++ "/" ++ folder
  else dest_datadir ++ "/" ++ (folder ++ toString dest_listing)

/-- Embeds `Data_Utils.get_finaldf` (Data_Utils.py lines 94-98). In augment
mode the final index is `dest_df.append(src_df)`: the accepted rows of
`dest_df` first, then the source rows of `src_df`. -/
def get_finaldf (src_df dest_df : List PyRow) (op : String) : List PyRow :=
  if op = "aug" then dest_df ++ src_df else dest_df

/-- Embeds `Data_Utils.df_data_fromidx` (Data_Utils.py lines 87-92) over an
abstracted filesystem: `src_df` is the parsed index, `imgs` the decoded image
for each row position. `df.iloc[idx]` raises `IndexError` out of range. -/
def df_data_fromidx (src_df : List PyRow) (imgs : List Image) (i : ℕ) :
    Except PyErr (Image × PyRow) :=
  match src_df.get? i, imgs.get? i with
  | some row, some img => Except.ok (img, row)
  | _, _ => Except.error PyErr.indexError

/-- The entry assertion of `Data_Utils.MOVE` (Data_Utils.py line 110):
`assert(op=='aug' and src_datadir != dest_datadir)`. The assertion passes
exactly when this condition is true. -/
def MOVE_assert_ok (op src_datadir dest_datadir : String) : Bool :=
  op == "aug" && src_datadir != dest_datadir

/-- The iteration bound of the dataset walk (Data_Utils.py line 123):
`maxlen = max(len(src_df), maxlen)`. -/
def MOVE_bound (n : ℕ) (maxlen : ℤ) : ℤ :=
  max (n : ℤ) maxlen

/-- Reads `dest_row[0]` (Data_Utils.py line 135): the default argument of
`dest_dict.get("img_name", dest_row[0])`, evaluated eagerly by Python.
Indexing a missing or scalar row raises `TypeError`, an empty series raises
`IndexError`. -/
def rowCell0 (row : Option RowVal) : Except PyErr Cell :=
  match row with
  | some (RowVal.series fs) =>
    match fs.get? 0 with
    | some f => Except.ok f
    | none => Except.error PyErr.indexError
  | _ => Except.error PyErr.typeError

/-- One iteration of the walk loop of `Data_Utils.MOVE`
(Data_Utils.py lines 124-141) at row index `i`, threading the accumulated
`dest_df`. `apply_flist` always returns the Python value `None` on success,
so the subsequent `dest_dict.get("flag", True)` raises `AttributeError`; the
accept branch is kept for fidelity: were a record dict ever returned, the
row read `dest_row[0]` runs first, and the image write
`cv2.imwrite(dest_img, path)` (line 141) passes the image where a filename
string is required and therefore raises `TypeError`. -/
def MOVE_step (flist : List JsonFunc) (src_df : List PyRow) (imgs : List Image)
    (dest_df : List PyRow) (i : ℕ) : Except PyErr (List PyRow) :=
  match df_data_fromidx src_df imgs i with
  | Except.error e => Except.error e
  | Except.ok (img, row) =>
    let src_dict : Record :=
      { img := some img, row := some (RowVal.series row), flag := none, img_name := none }
    match apply_flist src_dict flist with
    | Except.error e => Except.error e
    | Except.ok none => Except.error PyErr.attributeError
    | Except.ok (some dest_dict) =>
      if dest_dict.flag.getD true then
        match rowCell0 dest_dict.row with
        | Except.error e => Except.error e
        | Except.ok _ => Except.error PyErr.typeError
      else Except.ok dest_df

/-- The walk loop of `Data_Utils.MOVE` over the row indices produced by
`range(maxlen)` (Data_Utils.py line 124). -/
def MOVE_loop (flist : List JsonFunc) (src_df : List PyRow) (imgs : List Image) :
    List ℕ → List PyRow → Except PyErr (List PyRow)
  | [], dest_df => Except.ok dest_df
  | i :: rest, dest_df =>
    match MOVE_step flist src_df imgs dest_df i with
    | Except.error e => Except.error e
    | Except.ok dest_df2 => MOVE_loop flist src_df imgs rest dest_df2

/-- The observable outcome of a successful `Data_Utils.MOVE` call: the
destination data path and the consolidated index written to `data.csv`. -/
structure MoveResult where
  dest_datapath : String
  final_df : List PyRow
deriving DecidableEq

/-- Embeds `Data_Utils.MOVE` (Data_Utils.py lines 100-145) over an
abstracted filesystem: `src_df` is the parsed source index, `imgs` the
decoded image per row, `dest_listing` the entry count of the destination
directory. Checks the entry assertion, computes the destination path, walks
`range(max(len(src_df), maxlen))`, and writes the consolidated index. -/
def MOVE (src_df : List PyRow) (imgs : List Image) (dest_listing : ℕ)
    (src_datadir folder dest_datadir : String) (flist : List JsonFunc)
    (maxlen : ℤ) (op : String) : Except PyErr MoveResult :=
  if MOVE_assert_ok op src_datadir dest_datadir then
    let dest_datapath := get_dest_datapath dest_datadir folder op dest_listing
    match MOVE_loop flist src_df imgs (List.range (MOVE_bound src_df.length maxlen).toNat) [] with
    | Except.error e => Except.error e
    | Except.ok dest_df => Except.ok ⟨dest_datapath, get_finaldf src_df dest_df op⟩
  else Except.error PyErr.assertionError

/-- The global gradient-tracking switch toggled by
`torch.set_grad_enabled` (train.py lines 46 and 69). -/
structure TorchState where
  grad_enabled : Bool
deriving DecidableEq

/-- The batch loop of `Trainer.loss_pass` (train.py lines 51-67). Each batch
is `some loss` when the forward/backward step produces a loss value and
`none` when it raises; the loop accumulates the epoch total and counts
`optim.step()` calls, which happen only under `op == "train"` (line 63).
Returns `(none, steps)` when a batch raises, propagating the exception. -/
def loss_batches (op : String) : List (Option ℚ) → ℚ → ℕ → Option ℚ × ℕ
  | [], total, steps => (some total, steps)
  | none :: _, _, steps => (none, steps)
  | some l :: rest, total, steps =>
    loss_batches op rest (total + l) (if op == "train" then steps + 1 else steps)

/-- The observable outcome of `Trainer.loss_pass`: the returned epoch loss
(`none` when a batch raised and the exception propagated), the final state of
the global gradient switch, and how many optimizer steps were taken. -/
structure PassOutcome where
  result : Option ℚ
  final_state : TorchState
  optim_steps : ℕ
deriving DecidableEq

/-- Embeds `Trainer.loss_pass` (train.py lines 41-72). When `op == "valid"`
the gradient switch is set to false at entry (line 46) and set back to true
by the straight-line statement after the loop (line 69); there is no
try/finally, so an exception inside the batch loop leaves the switch as the
loop saw it. -/
def loss_pass (st : TorchState) (loader : List (Option ℚ)) (op : String) : PassOutcome :=
  let st1 : TorchState := if op == "valid" then ⟨false⟩ else st
  match loss_batches op loader 0 0 with
  | (none, steps) => { result := none, final_state := st1, optim_steps := steps }
  | (some total, steps) =>
    let st2 : TorchState := if op == "valid" then ⟨true⟩ else st1
    { result := some total, final_state := st2, optim_steps := steps }

/-- The comparison `best_loss > current_loss` of train.py lines 89 and 93,
with `none` standing for the initial `float('inf')` (lines 78-79), which is
greater than every finite loss. -/
def beats (best : Option ℚ) (x : ℚ) : Bool :=
  match best with
  | none => true
  | some b => decide (x < b)

/-- The epoch loop of `Trainer.TRAIN` (train.py lines 80-98) observed through
its checkpoint writes: starting from running bests `bt` (train) and `bv`
(valid) at epoch index `e`, emits `(epoch, "best_train_model")` and
`(epoch, "best_valid_model")` for each `torch.save` call (lines 91 and 95). -/
def TRAIN_go : Option ℚ → Option ℚ → ℕ → List (ℚ × ℚ) → List (ℕ × String)
  | _, _, _, [] => []
  | bt, bv, e, (tl, vl) :: rest =>
    (if beats bt tl then [(e, "best_train_model")] else []) ++
    (if beats bv vl then [(e, "best_valid_model")] else []) ++
    TRAIN_go (if beats bt tl then some tl else bt)
      (if beats bv vl then some vl else bv) (e + 1) rest

/-- The checkpoint writes of a full `Trainer.TRAIN` run over the per-epoch
`(train_loss, valid_loss)` pairs, both bests initialized to
`float('inf')` (train.py lines 78-79). -/
def TRAIN_checkpoints (losses : List (ℚ × ℚ)) : List (ℕ × String) :=
  TRAIN_go none none 0 losses
/-! Helper lemmas. -/

/-- Two horizontal mirrors restore the image. -/
theorem hflip_hflip (im : Image) : hflip (hflip im) = im := by
  simp [hflip, List.map_map, Function.comp_def]

/-- Membership in an optional singleton event followed by a tail. -/
theorem mem_optEvent {α : Type} (c : Bool) (x a : α) (l : List α) :
    (a ∈ (if c then [x] else []) ++ l) ↔ ((c = true ∧ a = x) ∨ a ∈ l) := by
  cases c <;> simp

/-- How the running-best comparison evolves: the updated best beats `x`
exactly when the old best beats `x` and `x` is strictly below the loss that
produced the update candidate. -/
theorem beats_update (bt : Option ℚ) (a x : ℚ) :
    beats (if beats bt a then some a else bt) x = (beats bt x && decide (x < a)) := by
  cases bt with
  | none => simp [beats]
  | some b =>
    by_cases hab : a < b
    · rw [if_pos (by simp [beats, hab])]
      simp only [beats]
      by_cases hx : x < a
      · simp [hx, hx.trans hab]
      · simp [hx]
    · rw [if_neg (by simp [beats, hab])]
      simp only [beats]
      by_cases hy : x < b
      · simp [hy, lt_of_lt_of_le hy (not_lt.mp hab)]
      · simp [hy]

/-- Membership of a best-train checkpoint write in the epoch loop, for any
starting bests and epoch offset: it occurs for position `i` of the remaining
loss list exactly when the train loss there beats the incoming best and every
earlier train loss of the list. -/
theorem TRAIN_go_mem_train (L : List (ℚ × ℚ)) :
    ∀ (bt bv : Option ℚ) (e k : ℕ),
      ((k, "best_train_model") ∈ TRAIN_go bt bv e L) ↔
      ∃ i pi, k = e + i ∧ L.get? i = some pi ∧ beats bt pi.1 = true ∧
        ∀ j pj, j < i → L.get? j = some pj → pi.1 < pj.1 := by
  induction L with
  | nil => intro bt bv e k; simp [TRAIN_go]
  | cons p rest ih =>
    intro bt bv e k
    obtain ⟨tl, vl⟩ := p
    have hmem : ((k, "best_train_model") ∈ TRAIN_go bt bv e ((tl, vl) :: rest)) ↔
        ((beats bt tl = true ∧ (k, "best_train_model") = (e, "best_train_model")) ∨
         (beats bv vl = true ∧ (k, "best_train_model") = (e, "best_valid_model")) ∨
         (k, "best_train_model") ∈ TRAIN_go (if beats bt tl then some tl else bt)
             (if beats bv vl then some vl else bv) (e + 1) rest) := by
      simp only [TRAIN_go, List.append_assoc, mem_optEvent]
    rw [hmem]
    constructor
    · rintro (⟨hc, heq⟩ | ⟨hc, heq⟩ | h)
      · simp only [Prod.mk.injEq] at heq
        exact ⟨0, (tl, vl), by omega, rfl, hc,
          fun j pj hj _ => absurd hj (Nat.not_lt_zero j)⟩
      · exfalso
        simp only [Prod.mk.injEq] at heq
        exact absurd heq.2 (by decide)
      · obtain ⟨i, pi, hk, hget, hb, hall⟩ := (ih _ _ (e + 1) k).mp h
        rw [beats_update, Bool.and_eq_true, decide_eq_true_eq] at hb
        refine ⟨i + 1, pi, by omega, by simpa using hget, hb.1, ?_⟩
        intro j pj hj hgj
        cases j with
        | zero =>
          simp only [List.get?_cons_zero, Option.some.injEq] at hgj
          rw [← hgj]
          exact hb.2
        | succ j2 =>
          exact hall j2 pj (Nat.lt_of_succ_lt_succ hj) (by simpa using hgj)
    · rintro ⟨i, pi, hk, hget, hb, hall⟩
      cases i with
      | zero =>
        left
        simp only [List.get?_cons_zero, Option.some.injEq] at hget
        subst hget
        exact ⟨by simpa using hb, by simp [hk]⟩
      | succ i2 =>
        right; right
        refine (ih _ _ (e + 1) k).mpr ⟨i2, pi, by omega, by simpa using hget, ?_, ?_⟩
        · rw [beats_update, Bool.and_eq_true, decide_eq_true_eq]
          refine ⟨hb, ?_⟩
          have h0 := hall 0 (tl, vl) (Nat.succ_pos i2) rfl
          simpa using h0
        · intro j pj hj hgj
          exact hall (j + 1) pj (Nat.succ_lt_succ hj) (by simpa using hgj)

/-- Membership of a best-valid checkpoint write in the epoch loop: the
property symmetric to `TRAIN_go_mem_train`, on the valid-loss component. -/
theorem TRAIN_go_mem_valid (L : List (ℚ × ℚ)) :
    ∀ (bt bv : Option ℚ) (e k : ℕ),
      ((k, "best_valid_model") ∈ TRAIN_go bt bv e L) ↔
      ∃ i pi, k = e + i ∧ L.get? i = some pi ∧ beats bv pi.2 = true ∧
        ∀ j pj, j < i → L.get? j = some pj → pi.2 < pj.2 := by
  induction L with
  | nil => intro bt bv e k; simp [TRAIN_go]
  | cons p rest ih =>
    intro bt bv e k
    obtain ⟨tl, vl⟩ := p
    have hmem : ((k, "best_valid_model") ∈ TRAIN_go bt bv e ((tl, vl) :: rest)) ↔
        ((beats bt tl = true ∧ (k, "best_valid_model") = (e, "best_train_model")) ∨
         (beats bv vl = true ∧ (k, "best_valid_model") = (e, "best_valid_model")) ∨
         (k, "best_valid_model") ∈ TRAIN_go (if beats bt tl then some tl else bt)
             (if beats bv vl then some vl else bv) (e + 1) rest) := by
      simp only [TRAIN_go, List.append_assoc, mem_optEvent]
    rw [hmem]
    constructor
    · rintro (⟨hc, heq⟩ | ⟨hc, heq⟩ | h)
      · exfalso
        simp only [Prod.mk.injEq] at heq
        exact absurd heq.2 (by decide)
      · simp only [Prod.mk.injEq] at heq
        exact ⟨0, (tl, vl), by omega, rfl, hc,
          fun j pj hj _ => absurd hj (Nat.not_lt_zero j)⟩
      · obtain ⟨i, pi, hk, hget, hb, hall⟩ := (ih _ _ (e + 1) k).mp h
        rw [beats_update, Bool.and_eq_true, decide_eq_true_eq] at hb
        refine ⟨i + 1, pi, by omega, by simpa using hget, hb.1, ?_⟩
        intro j pj hj hgj
        cases j with
        | zero =>
          simp only [List.get?_cons_zero, Option.some.injEq] at hgj
          rw [← hgj]
          exact hb.2
        | succ j2 =>
          exact hall j2 pj (Nat.lt_of_succ_lt_succ hj) (by simpa using hgj)
    · rintro ⟨i, pi, hk, hget, hb, hall⟩
      cases i with
      | zero =>
        right; left
        simp only [List.get?_cons_zero, Option.some.injEq] at hget
        subst hget
        exact ⟨by simpa using hb, by simp [hk]⟩
      | succ i2 =>
        right; right
        refine (ih _ _ (e + 1) k).mpr ⟨i2, pi, by omega, by simpa using hget, ?_, ?_⟩
        · rw [beats_update, Bool.and_eq_true, decide_eq_true_eq]
          refine ⟨hb, ?_⟩
          have h0 := hall 0 (tl, vl) (Nat.succ_pos i2) rfl
          simpa using h0
        · intro j pj hj hgj
          exact hall (j + 1) pj (Nat.succ_lt_succ hj) (by simpa using hgj)

/-- Every name of the fixed vocabulary resolves in the registry dispatch. -/
theorem get_pfunc_known (g : JsonFunc) (h : g.F ∈ knownOpNames) :
    ∃ p, get_pfunc g = Except.ok p := by
  simp only [knownOpNames, List.mem_cons, List.not_mem_nil, or_false] at h
  rcases h with h | h | h | h | h <;>
    exact ⟨_, by unfold get_pfunc; rw [h]; rfl⟩

/-- If the earlier descriptors all carry known names and a later one does
not, the per-record loop of `apply_flist` raises the unknown-operation
exception, for every record. -/
theorem apply_flist_unknown (fl1 fl2 : List JsonFunc) (f : JsonFunc)
    (h1 : ∀ g ∈ fl1, g.F ∈ knownOpNames) (h2 : f.F ∉ knownOpNames) (r : Record) :
    apply_flist r (fl1 ++ f :: fl2) = Except.error (PyErr.exception unknownOpMsg) := by
  induction fl1 with
  | nil =>
    have hf : get_pfunc f = Except.error (PyErr.exception unknownOpMsg) := by
      simp only [knownOpNames, List.mem_cons, List.mem_singleton, not_or] at h2
      obtain ⟨n1, n2, n3, n4, n5⟩ := h2
      unfold get_pfunc
      simp [n1, n2, n3, n4, n5]
    simp only [List.nil_append, apply_flist, hf]
  | cons g tl ih =>
    obtain ⟨p, hp⟩ := get_pfunc_known g (h1 g (List.mem_cons_self g tl))
    simp only [List.cons_append, apply_flist, hp]
    exact ih (fun x hx => h1 x (List.mem_cons_of_mem g hx))

/-- A validation pass never increments the optimizer-step counter. -/
theorem loss_batches_valid_steps (l : List (Option ℚ)) :
    ∀ t s, (loss_batches "valid" l t s).2 = s := by
  induction l with
  | nil => intro t s; rfl
  | cons h tl ih =>
    intro t s
    cases h with
    | none => rfl
    | some x =>
      simp only [loss_batches]
      rw [if_neg (by decide)]
      exact ih (t + x) s

/-! Claim theorems. -/

/-- Claim C1: the Transform Executor's apply was claimed to return a record,
applying the operations strictly in list order, each receiving the output of
its predecessor. The code violates this: `apply_flist` builds each partial
function but never calls it and has no return statement, so a record with a
nonzero angle run through a one-element flipNonZero pipeline yields the
Python value `None`, while the contract of the docstring and spec (stated as
`apply_flist_spec`) would yield the flipped record. -/
theorem C1_apply_flist_applies_nothing :
    apply_flist
        { img := some [[(1, 2, 3), (4, 5, 6)]],
          row := some (RowVal.series [Cell.str "a.png", Cell.num 1]),
          flag := none, img_name := none }
        [⟨"flipNonZero", []⟩] = Except.ok none ∧
    apply_flist_spec
        { img := some [[(1, 2, 3), (4, 5, 6)]],
          row := some (RowVal.series [Cell.str "a.png", Cell.num 1]),
          flag := none, img_name := none }
        [⟨"flipNonZero", []⟩] =
      Except.ok
        { img := some [[(4, 5, 6), (1, 2, 3)]],
          row := some (RowVal.series [Cell.str "a.png", Cell.num (-1)]),
          flag := some true, img_name := none } := by
  constructor
  · rfl
  · have hpf : get_pfunc ⟨"flipNonZero", []⟩ = Except.ok (flipNonZero []) := rfl
    simp only [apply_flist_spec, hpf]
    norm_num [flipNonZero, hflip]

/-- Claim C2: augment mode was claimed to require identical source and
destination roots, checked at entry, while move mode proceeds normally on
differing paths. The code violates both directions: the entry assertion is
`assert(op=='aug' and src_datadir != dest_datadir)`, so an augment call with
identical roots raises AssertionError, and every move-mode call raises
AssertionError (the docstring and the assertion message both state the
opposite contract, so this is a slip in the code). -/
theorem C2_MOVE_entry_assert_inverted :
    MOVE [] [] 0 "/data" "f" "/data" [] (-1) "aug" =
      Except.error PyErr.assertionError ∧
    MOVE [] [] 0 "/src" "f" "/dest" [] (-1) "mv" =
      Except.error PyErr.assertionError := by
  decide

/-- Claim C3: the dataset walk was claimed to iterate rows 0..limit-1, the
limit truncating the walk when smaller than the row count. The code computes
the bound as `max(len(src_df), maxlen)`: for a 3-row index and limit 2 the
walk still visits rows 0, 1 and 2, so the limit never truncates. The default
limit -1 does resolve to the full row count. -/
theorem C3_walk_bound_uses_max :
    MOVE_bound 3 2 = 3 ∧ MOVE_bound 3 2 ≠ 2 ∧
    List.range (MOVE_bound 3 2).toNat = [0, 1, 2] ∧
    MOVE_bound 3 (-1) = 3 := by
  decide

/-- Counterexample to claim C4 as stated: consolidating a one-row source
index with a one-row accepted batch in augment mode puts the accepted row
first, not the source row, so the first N rows are not the source rows. -/
theorem C4_counterexample_augment_order :
    get_finaldf [[Cell.str "a.png", Cell.num 0]] [[Cell.str "b.png", Cell.num 1]]
        "aug" =
      [[Cell.str "b.png", Cell.num 1], [Cell.str "a.png", Cell.num 0]] ∧
    get_finaldf [[Cell.str "a.png", Cell.num 0]] [[Cell.str "b.png", Cell.num 1]]
        "aug" ≠
      [[Cell.str "a.png", Cell.num 0], [Cell.str "b.png", Cell.num 1]] := by
  decide

/-- Claim C4 amended: in augment mode the consolidated index
`dest_df.append(src_df)` has exactly N + M rows, but the M accepted rows come
first in acceptance order, followed by the N source rows in original order. -/
theorem C4_augment_index_accepted_then_source (src_df dest_df : List PyRow) :
    (get_finaldf src_df dest_df "aug").length = src_df.length + dest_df.length ∧
    (get_finaldf src_df dest_df "aug").take dest_df.length = dest_df ∧
    (get_finaldf src_df dest_df "aug").drop dest_df.length = src_df := by
  refine ⟨?_, ?_, ?_⟩
  · simp [get_finaldf, Nat.add_comm]
  · simp only [get_finaldf, if_pos rfl]
    exact List.take_left dest_df src_df
  · simp only [get_finaldf, if_pos rfl]
    exact List.drop_left dest_df src_df

/-- Claim C5: angle-offset and radians-to-degrees were claimed to update only
the angle field of the label row, keeping the filename and other fields. The
code violates this: both store the bare scalar under the "row" key, replacing
the whole label row (`dest_dict["row"] = src_row[1] + offset`), erasing the
filename that `Data_Utils.MOVE` itself later reads via `dest_row[0]`. -/
theorem C5_angle_ops_destroy_label_row :
    radOffset [Arg.num (1 / 4)]
        { img := some [[(0, 0, 0)]],
          row := some (RowVal.series [Cell.str "img0.png", Cell.num (1 / 2)]),
          flag := none, img_name := none } =
      Except.ok
        { img := some [[(0, 0, 0)]], row := some (RowVal.num (3 / 4)),
          flag := none, img_name := none } ∧
    rad2deg []
        { img := some [[(0, 0, 0)]],
          row := some (RowVal.series [Cell.str "img0.png", Cell.num (1 / 2)]),
          flag := none, img_name := none } =
      Except.ok
        { img := some [[(0, 0, 0)]],
          row := some (RowVal.num (1 / 2 * 180 / mathPi)),
          flag := none, img_name := none } ∧
    radOffset [Arg.num (1 / 4)]
        { img := some [[(0, 0, 0)]],
          row := some (RowVal.series [Cell.str "img0.png", Cell.num (1 / 2)]),
          flag := none, img_name := none } ≠
      Except.ok
        { img := some [[(0, 0, 0)]],
          row := some (RowVal.series [Cell.str "img0.png", Cell.num (3 / 4)]),
          flag := none, img_name := none } := by
  refine ⟨?_, ?_, ?_⟩
  · norm_num [radOffset]
  · norm_num [rad2deg]
  · simp [radOffset]

/-- Counterexample to claim C6 as stated: a pipeline containing the unknown
operation name bogus does not fail fast at pipeline build; a MOVE over an
empty source index runs it to successful completion, never raising the
unknown-operation error. -/
theorem C6_counterexample_no_fail_fast :
    MOVE [] [] 0 "s" "f" "d" [⟨"bogus", []⟩] (-1) "aug" =
      Except.ok ⟨"d/f", []⟩ ∧
    "bogus" ∉ knownOpNames := by
  decide

/-- Claim C6 amended: an unknown operation name makes the walk abort with the
unknown-operation exception while the first record is being processed, before
any record is accepted; but the names are resolved per record inside the walk
rather than once per pipeline build, so a walk over an empty source index
(default limit) completes without any unknown-operation error. -/
theorem C6_unknown_name_raises_per_record
    (row : PyRow) (img : Image) (df : List PyRow) (ims : List Image)
    (dl : ℕ) (src_datadir folder dest_datadir : String)
    (fl1 fl2 : List JsonFunc) (f : JsonFunc) (maxlen : ℤ)
    (h1 : ∀ g ∈ fl1, g.F ∈ knownOpNames) (h2 : f.F ∉ knownOpNames)
    (hsd : src_datadir ≠ dest_datadir) :
    MOVE (row :: df) (img :: ims) dl src_datadir folder dest_datadir
        (fl1 ++ f :: fl2) maxlen "aug" =
      Except.error (PyErr.exception unknownOpMsg) ∧
    MOVE [] [] dl src_datadir folder dest_datadir (fl1 ++ f :: fl2) (-1) "aug" =
      Except.ok ⟨get_dest_datapath dest_datadir folder "aug" dl, []⟩ := by
  have hassert : MOVE_assert_ok "aug" src_datadir dest_datadir = true := by
    simp [MOVE_assert_ok, hsd]
  constructor
  · unfold MOVE
    rw [if_pos hassert]
    have hb : (1 : ℤ) ≤ MOVE_bound (row :: df).length maxlen := by
      unfold MOVE_bound
      have hl := le_max_left (((row :: df).length : ℕ) : ℤ) maxlen
      have hlen : ((((row :: df).length : ℕ)) : ℤ) = (df.length : ℤ) + 1 := by
        push_cast [List.length_cons]
        ring
      omega
    have hn : (MOVE_bound (row :: df).length maxlen).toNat ≠ 0 := by omega
    obtain ⟨m, hm⟩ := Nat.exists_eq_succ_of_ne_zero hn
    rw [hm, List.range_succ_eq_map]
    have hstep : MOVE_step (fl1 ++ f :: fl2) (row :: df) (img :: ims) [] 0 =
        Except.error (PyErr.exception unknownOpMsg) := by
      unfold MOVE_step df_data_fromidx
      simp only [List.get?_cons_zero]
      rw [apply_flist_unknown fl1 fl2 f h1 h2]
    simp only [MOVE_loop, hstep]
  · unfold MOVE
    rw [if_pos hassert]
    have hb0 : (MOVE_bound ([] : List PyRow).length (-1)).toNat = 0 := rfl
    rw [hb0]
    simp only [List.range_zero, MOVE_loop]
    rfl

/-- Witness for C6: a one-record walk with pipeline rad2deg then the unknown
name bogus raises the unknown-operation exception, while the empty walk with
the same pipeline succeeds. -/
theorem C6_unknown_name_raises_per_record_witness :
    MOVE [[Cell.str "a.png", Cell.num 0]] [[[(0, 0, 0)]]] 0 "s" "f" "d"
        [⟨"rad2deg", []⟩, ⟨"bogus", []⟩] (-1) "aug" =
      Except.error (PyErr.exception unknownOpMsg) ∧
    MOVE [] [] 0 "s" "f" "d" [⟨"rad2deg", []⟩, ⟨"bogus", []⟩] (-1) "aug" =
      Except.ok ⟨get_dest_datapath "d" "f" "aug" 0, []⟩ :=
  C6_unknown_name_raises_per_record [Cell.str "a.png", Cell.num 0] [[(0, 0, 0)]]
    [] [] 0 "s" "f" "d" [⟨"rad2deg", []⟩] [] ⟨"bogus", []⟩ (-1)
    (by decide) (by decide) (by decide)

/-- Claim C7: over any per-epoch loss sequence, with both bests initialized
to infinity, the best_train checkpoint is written exactly at the epochs whose
train loss is strictly lower than every earlier epoch's train loss (ties do
not overwrite), and the same property holds for best_valid on valid losses. -/
theorem C7_best_checkpoint_exactly_at_new_minima
    (losses : List (ℚ × ℚ)) (e : ℕ) (p : ℚ × ℚ)
    (hp : losses.get? e = some p) :
    (((e, "best_train_model") ∈ TRAIN_checkpoints losses) ↔
      ∀ j q, j < e → losses.get? j = some q → p.1 < q.1) ∧
    (((e, "best_valid_model") ∈ TRAIN_checkpoints losses) ↔
      ∀ j q, j < e → losses.get? j = some q → p.2 < q.2) := by
  constructor
  · rw [TRAIN_checkpoints, TRAIN_go_mem_train]
    constructor
    · rintro ⟨i, pi, hk, hget, _, hall⟩
      have hie : i = e := by omega
      subst hie
      rw [hp] at hget
      injection hget with hpi
      subst hpi
      exact hall
    · intro hall
      exact ⟨e, p, by omega, hp, rfl, hall⟩
  · rw [TRAIN_checkpoints, TRAIN_go_mem_valid]
    constructor
    · rintro ⟨i, pi, hk, hget, _, hall⟩
      have hie : i = e := by omega
      subst hie
      rw [hp] at hget
      injection hget with hpi
      subst hpi
      exact hall
    · intro hall
      exact ⟨e, p, by omega, hp, rfl, hall⟩

/-- Witness for C7: with losses (3,5), (2,6), (2,4), epoch 1 sets a new
running train minimum (2 < 3) and is saved as best_train, while its valid
loss 6 does not beat 5 and no best_valid checkpoint is written there. -/
theorem C7_best_checkpoint_exactly_at_new_minima_witness :
    ((1, "best_train_model") ∈ TRAIN_checkpoints [(3, 5), (2, 6), (2, 4)]) ∧
    ((1, "best_valid_model") ∉ TRAIN_checkpoints [(3, 5), (2, 6), (2, 4)]) := by
  have h := C7_best_checkpoint_exactly_at_new_minima [(3, 5), (2, 6), (2, 4)]
    1 (2, 6) rfl
  constructor
  · apply h.1.mpr
    intro j q hj hq
    interval_cases j
    simp only [List.get?_cons_zero, Option.some.injEq] at hq
    rw [← hq]
    norm_num
  · intro hmem
    have h2 := h.2.mp hmem 0 (3, 5) (by omega) rfl
    norm_num at h2

/-- Counterexample to claim C8 as stated: a validation pass whose second
batch raises exits with gradient tracking still disabled, because the
re-enable after the loop is a straight-line statement, not a scoped
release that runs on the exception path. -/
theorem C8_counterexample_error_leaves_grad_disabled :
    loss_pass ⟨true⟩ [some 1, none] "valid" =
      { result := none, final_state := ⟨false⟩, optim_steps := 0 } ∧
    (loss_pass ⟨true⟩ [some 1, none] "valid").final_state.grad_enabled = false := by
  constructor
  · rfl
  · rfl

/-- Claim C8 amended: during a validation pass no optimizer step is ever
taken, gradient tracking is disabled for the pass and re-enabled when the
pass completes normally; when a batch step raises, the pass exits with
gradient tracking still disabled (the final gradient state equals whether
the pass returned a result). -/
theorem C8_valid_pass_no_step_grad_restored_on_completion
    (st : TorchState) (loader : List (Option ℚ)) :
    (loss_pass st loader "valid").optim_steps = 0 ∧
    (loss_pass st loader "valid").final_state.grad_enabled =
      (loss_pass st loader "valid").result.isSome := by
  have hsteps := loss_batches_valid_steps loader 0 0
  simp only [loss_pass]
  rcases hlb : loss_batches "valid" loader 0 0 with ⟨res, steps⟩
  rw [hlb] at hsteps
  simp only at hsteps
  cases res with
  | none => simp [hsteps]
  | some t => simp [hsteps]

/-- Claim C9: applying flip-if-nonzero-angle twice to a record with a
nonzero angle restores the original angle value and image orientation, and
leaves the flag true after both the first and the second application. -/
theorem C9_flipNonZero_twice_restores (r : Record) (fs : List Cell) (a : ℚ)
    (im : Image) (hrow : r.row = some (RowVal.series fs))
    (hang : fs.get? 1 = some (Cell.num a)) (ha : a ≠ 0) (him : r.img = some im) :
    ∃ r1 r2, flipNonZero [] r = Except.ok r1 ∧ flipNonZero [] r1 = Except.ok r2 ∧
      r1.flag = some true ∧ r2.flag = some true ∧
      r2.img = r.img ∧ r2.row = r.row := by
  obtain ⟨rimg, rrow, rflag, rname⟩ := r
  simp only at hrow him
  subst hrow
  subst him
  cases fs with
  | nil => simp at hang
  | cons f0 fs1 =>
    cases fs1 with
    | nil => simp at hang
    | cons f1 tl =>
      simp only [List.get?_cons_succ, List.get?_cons_zero, Option.some.injEq] at hang
      subst hang
      refine ⟨⟨some (hflip im), some (RowVal.series (f0 :: Cell.num (-1 * a) :: tl)),
                some true, rname⟩,
              ⟨some (hflip (hflip im)),
                some (RowVal.series (f0 :: Cell.num (-1 * (-1 * a)) :: tl)),
                some true, rname⟩, ?_, ?_, rfl, rfl, ?_, ?_⟩
      · simp [flipNonZero, ha]
      · simp [flipNonZero, ha]
      · simp [hflip_hflip]
      · have hrw : -1 * (-1 * a) = a := by ring
        rw [hrw]

/-- Witness for C9: the double flip on a concrete record with angle 1. -/
theorem C9_flipNonZero_twice_restores_witness :
    ∃ r1 r2,
      flipNonZero []
          { img := some [[(1, 2, 3), (4, 5, 6)]],
            row := some (RowVal.series [Cell.str "a.png", Cell.num 1]),
            flag := none, img_name := none } = Except.ok r1 ∧
      flipNonZero [] r1 = Except.ok r2 ∧
      r1.flag = some true ∧ r2.flag = some true ∧
      r2.img = some [[(1, 2, 3), (4, 5, 6)]] ∧
      r2.row = some (RowVal.series [Cell.str "a.png", Cell.num 1]) :=
  C9_flipNonZero_twice_restores
    { img := some [[(1, 2, 3), (4, 5, 6)]],
      row := some (RowVal.series [Cell.str "a.png", Cell.num 1]),
      flag := none, img_name := none }
    [Cell.str "a.png", Cell.num 1] 1 [[(1, 2, 3), (4, 5, 6)]]
    rfl rfl one_ne_zero rfl

/-- Claim C10: for a record whose angle is nonzero, flip-if-nonzero-angle
unconditionally sets the flag to true, overwriting a false flag set earlier
in the chain, so the record is accepted again by the walk's flag check
(`dest_dict.get("flag", True)`): the flag is not monotone along a chain. -/
theorem C10_flipNonZero_overwrites_false_flag (r : Record) (fs : List Cell)
    (a : ℚ) (im : Image) (hrow : r.row = some (RowVal.series fs))
    (hang : fs.get? 1 = some (Cell.num a)) (ha : a ≠ 0) (him : r.img = some im)
    (hflag : r.flag = some false) :
    ∃ r2, flipNonZero [] r = Except.ok r2 ∧ r2.flag = some true ∧
      r2.flag.getD true = true := by
  obtain ⟨rimg, rrow, rflag, rname⟩ := r
  simp only at hrow him hflag
  subst hrow
  subst him
  subst hflag
  cases fs with
  | nil => simp at hang
  | cons f0 fs1 =>
    cases fs1 with
    | nil => simp at hang
    | cons f1 tl =>
      simp only [List.get?_cons_succ, List.get?_cons_zero, Option.some.injEq] at hang
      subst hang
      refine ⟨⟨some (hflip im), some (RowVal.series (f0 :: Cell.num (-1 * a) :: tl)),
                some true, rname⟩, ?_, rfl, rfl⟩
      simp [flipNonZero, ha]

/-- Witness for C10: a record already marked dropped (flag false) with angle
one half comes out of flipNonZero with flag true. -/
theorem C10_flipNonZero_overwrites_false_flag_witness :
    ∃ r2,
      flipNonZero []
          { img := some [[(7, 8, 9)]],
            row := some (RowVal.series [Cell.str "b.png", Cell.num (1 / 2)]),
            flag := some false, img_name := none } = Except.ok r2 ∧
      r2.flag = some true ∧ r2.flag.getD true = true :=
  C10_flipNonZero_overwrites_false_flag
    { img := some [[(7, 8, 9)]],
      row := some (RowVal.series [Cell.str "b.png", Cell.num (1 / 2)]),
      flag := some false, img_name := none }
    [Cell.str "b.png", Cell.num (1 / 2)] (1 / 2) [[(7, 8, 9)]]
    rfl rfl (by norm_num) rfl rfl
